import Mathlib

/-!
Verification of the `adk-made-simple` repository's sentiment-analyzer stack:
a shallow embedding of `SentimentTaskManager` (`agents/sentiment_analyzer/task_manager.py`),
the port selection of `agents/sentiment_analyzer/__main__.py`, and the
`send_message` handler of `apps/a2a_sentiment_app.py`, with theorems settling
the frozen claims about them.

Text is modelled as `List Char`. The four fixed regular expressions of
`_extract_sentiment_data` are hand-compiled, faithfully to Python `re.search`
semantics for those patterns (leftmost position, `re.IGNORECASE`, `re.DOTALL`,
lazy capture bounded by a lookahead in which `$` also matches just before a
final newline).
-/

namespace Adk

/-- The characters of a string literal. -/
def chars (s : String) : List Char := s.data

/-- Python `str.strip()` whitespace, restricted to the ASCII whitespace
characters (the inputs of interest are ASCII). -/
def isPyWs (c : Char) : Bool :=
  c == ' ' || c == '\t' || c == '\n' || c == '\r' || c == '\x0b' || c == '\x0c'

/-- Remove trailing Python whitespace. -/
def dropTrail (l : List Char) : List Char :=
  (l.reverse.dropWhile isPyWs).reverse

/-- Python `str.strip()`. -/
def pyStrip (l : List Char) : List Char :=
  dropTrail (l.dropWhile isPyWs)

/-- Python `str.split(sep)` for a one-character separator:
`"".split(",") = [""]`, `",".split(",") = ["", ""]`. -/
def pySplit (sep : Char) : List Char → List (List Char)
  | [] => [[]]
  | c :: cs =>
    if c == sep then [] :: pySplit sep cs
    else
      match pySplit sep cs with
      | r :: rs => (c :: r) :: rs
      | [] => [[c]]

/-- Python `line.split("-", 1)[1]`: everything after the first `'-'`
(meaningful only when the line contains one, as the code guards). -/
def afterFirstDash (l : List Char) : List Char :=
  (l.dropWhile (fun c => c != '-')).drop 1

/-- Python `str.lower()` on ASCII text. -/
def strLower (l : List Char) : List Char := l.map Char.toLower

/-- Case-insensitive literal prefix match (the pattern is given lowercased, as
`re.IGNORECASE` folds both sides): `some rest` on success. -/
def stripPrefixCI : List Char → List Char → Option (List Char)
  | [], cs => some cs
  | _ :: _, [] => none
  | p :: ps, c :: cs => if c.toLower = p then stripPrefixCI ps cs else none

/-- Case-insensitive literal match that keeps the matched input characters
(the regex group captures the original text, which `.lower()` then folds). -/
def matchCIKeep : List Char → List Char → Option (List Char)
  | [], _ => some []
  | _ :: _, [] => none
  | p :: ps, c :: cs =>
    if c.toLower = p then (matchCIKeep ps cs).map (fun g => c :: g) else none

/-- The regex `" *"`: greedily consume ASCII spaces. -/
def dropSpaces (l : List Char) : List Char := l.dropWhile (fun c => c == ' ')

/-- One attempt of `re.search(r"Overall Sentiment: *(positive|negative|neutral)",
text, re.IGNORECASE)` at the current position: the captured group on success. -/
def matchSentimentAt (cs : List Char) : Option (List Char) :=
  match stripPrefixCI (chars "overall sentiment:") cs with
  | none => none
  | some rest =>
    let r := dropSpaces rest
    match matchCIKeep (chars "positive") r with
    | some g => some g
    | none =>
      match matchCIKeep (chars "negative") r with
      | some g => some g
      | none => matchCIKeep (chars "neutral") r

/-- One attempt of `re.search(r"Confidence: *(\d+%|\d+)", text, re.IGNORECASE)`
at the current position.  Backtracking of `\d+%|\d+` amounts to: take the
maximal digit run; if a `'%'` follows immediately it is part of the group. -/
def matchConfidenceAt (cs : List Char) : Option (List Char) :=
  match stripPrefixCI (chars "confidence:") cs with
  | none => none
  | some rest =>
    let r := dropSpaces rest
    let ds := r.takeWhile Char.isDigit
    if ds.isEmpty then none
    else
      match r.drop ds.length with
      | '%' :: _ => some (ds ++ ['%'])
      | _ => some ds

/-- The lookahead `(?=\n\n|\n-|$)` of the Key Markers regex, read on the
remaining input: `$` (no `re.MULTILINE`) holds at the end of the string and
just before a final newline. -/
def stopM : List Char → Bool
  | [] => true
  | [c] => c == '\n'
  | c1 :: c2 :: _ => c1 == '\n' && (c2 == '\n' || c2 == '-')

/-- The lookahead `(?=\n\n|$)` of the Analysis regex. -/
def stopA : List Char → Bool
  | [] => true
  | [c] => c == '\n'
  | c1 :: c2 :: _ => c1 == '\n' && c2 == '\n'

/-- The lazy capture `(.*?)` under `re.DOTALL`, bounded by a lookahead: the
shortest prefix whose remainder satisfies the lookahead.  Since both
lookaheads hold at the end of the input, the capture always terminates. -/
def lazyCapture (stopF : List Char → Bool) : List Char → List Char
  | [] => []
  | c :: cs => if stopF (c :: cs) then [] else c :: lazyCapture stopF cs

/-- One attempt of `re.search(r"Key Markers: *(.*?)(?=\n\n|\n-|$)", text,
re.IGNORECASE | re.DOTALL)` at the current position. -/
def matchMarkersAt (cs : List Char) : Option (List Char) :=
  (stripPrefixCI (chars "key markers:") cs).map
    (fun rest => lazyCapture stopM (dropSpaces rest))

/-- One attempt of `re.search(r"Analysis: *(.*?)(?=\n\n|$)", text,
re.IGNORECASE | re.DOTALL)` at the current position. -/
def matchAnalysisAt (cs : List Char) : Option (List Char) :=
  (stripPrefixCI (chars "analysis:") cs).map
    (fun rest => lazyCapture stopA (dropSpaces rest))

/-- `re.search`: try the matcher at every position, leftmost first, including
the end-of-string position. -/
def searchPos {α : Type} (f : List Char → Option α) : List Char → Option α
  | [] => f []
  | c :: cs =>
    match f (c :: cs) with
    | some r => some r
    | none => searchPos f cs

/-- The dictionary `_extract_sentiment_data` builds: it always has exactly the
keys `sentiment`, `confidence`, `key_markers`, `analysis`. -/
structure SentimentData where
  sentiment : List Char
  confidence : List Char
  key_markers : List (List Char)
  analysis : List Char
deriving DecidableEq, Repr

/-- `SentimentTaskManager._extract_sentiment_data`
(`agents/sentiment_analyzer/task_manager.py`, lines 123-181). -/
def extractSentimentData (text : List Char) : SentimentData :=
  let sentiment :=
    match searchPos matchSentimentAt text with
    | some g => strLower g
    | none => chars "unknown"
  let confidence :=
    match searchPos matchConfidenceAt text with
    | some g => if g.getLastD ' ' = '%' then g else g ++ ['%']
    | none => chars "0%"
  let key_markers :=
    match searchPos matchMarkersAt text with
    | none => []
    | some g =>
      let mt := pyStrip g
      if '-' ∈ mt then
        (pySplit '\n' mt).filterMap (fun line =>
          if '-' ∈ line then
            let marker := pyStrip (afterFirstDash line)
            if marker = [] then none else some marker
          else none)
      else if ',' ∈ mt then
        (pySplit ',' mt).filterMap (fun m =>
          let s := pyStrip m
          if s = [] then none else some s)
      else if mt = [] then [] else [mt]
  let analysis :=
    match searchPos matchAnalysisAt text with
    | some g => pyStrip g
    | none => chars "No analysis available"
  ⟨sentiment, confidence, key_markers, analysis⟩

/-! ## JSON-like values

Python dictionaries that cross the A2A boundary are modelled as ordered
association lists, so the embedding keeps exactly the keys the source writes. -/

inductive JVal where
  | jstr (v : List Char)
  | jarr (vs : List JVal)
  | jobj (fields : List (List Char × JVal))

/-- `d[k]` / `d.get(k)` on an object; `none` on a missing key or a non-object. -/
def jGet : JVal → List Char → Option JVal
  | JVal.jobj fs, k => (fs.find? (fun f => f.1 == k)).map Prod.snd
  | _, _ => none

/-- The keys of an object, in insertion order. -/
def jKeys : JVal → List (List Char)
  | JVal.jobj fs => fs.map Prod.fst
  | _ => []

/-- `pat` occurs as a contiguous substring of `l`. -/
def startsWithChars : List Char → List Char → Bool
  | [], _ => true
  | _ :: _, [] => false
  | p :: ps, c :: cs => p == c && startsWithChars ps cs

/-- Substring occurrence. -/
def hasSub (pat l : List Char) : Bool :=
  l.tails.any (fun t => startsWithChars pat t)

mutual
/-- `pat` occurs somewhere in the JSON value: in a string, or in a key. -/
def jvalMentions (pat : List Char) : JVal → Bool
  | JVal.jstr v => hasSub pat v
  | JVal.jarr vs => jvalListMentions pat vs
  | JVal.jobj fs => jvalFieldsMentions pat fs

def jvalListMentions (pat : List Char) : List JVal → Bool
  | [] => false
  | v :: vs => jvalMentions pat v || jvalListMentions pat vs

def jvalFieldsMentions (pat : List Char) : List (List Char × JVal) → Bool
  | [] => false
  | f :: fs => hasSub pat f.1 || jvalMentions pat f.2 || jvalFieldsMentions pat fs
end

/-! ## `SentimentTaskManager.process_task`

The ADK runner is external: a call to it is modelled by its observable
outcome — the event sequence it yields, or the events consumed before an
exception is raised inside the runner call / event consumption.  Events carry
the fields `process_task` reads (`is_final_response()`, `content.role`,
`content.parts[0].text`) plus their `model_dump` as an opaque JSON value. -/

structure A2APart where
  text : Option (List Char)

structure A2AContent where
  role : List Char
  parts : List A2APart

structure A2AEvent where
  isFinalResponse : Bool
  content : Option A2AContent
  dump : JVal

/-- The condition under which the event loop takes an event's text as the
final message: `event.is_final_response() and event.content and
event.content.role == "model"` and `event.content.parts and
event.content.parts[0].text` (Python truthiness: non-`None`, non-empty). -/
def finalText (e : A2AEvent) : Option (List Char) :=
  if e.isFinalResponse then
    match e.content with
    | some c =>
      if c.role = chars "model" then
        match c.parts with
        | p :: _ =>
          match p.text with
          | some t => if t = [] then none else some t
          | none => none
        | [] => none
      else none
    | none => none
  else none

/-- Outcome of the model-execution path (`runner.run_async` and the
`async for` loop): either the full event list, or an exception of class
`excType` with message `excMsg` raised after some events were consumed. -/
inductive RunOutcome where
  | ok (events : List A2AEvent)
  | raised (consumed : List A2AEvent) (excType : List Char) (excMsg : List Char)

def A2A_APP_NAME : List Char := chars "sentiment_analyzer_a2a_app"

/-- A session key `(app_name, user_id, session_id)`; the in-memory session
service is modelled by the list of keys it holds. -/
abbrev SessionKey := List Char × List Char × List Char

abbrev SessionStore := List SessionKey

/-- The inputs of one `process_task` call: the message, `context.get("user_id")`,
the optional `session_id`, the value `str(uuid.uuid4())` would produce on this
call, and the runner outcome. -/
structure TaskInput where
  message : List Char
  ctxUserId : Option (List Char)
  sessionId : Option (List Char)
  freshId : List Char
  outcome : RunOutcome

/-- The sentiment-data dictionary as it is embedded in the response JSON. -/
def sdToJVal (d : SentimentData) : JVal :=
  JVal.jobj
    [ (chars "sentiment", JVal.jstr d.sentiment),
      (chars "confidence", JVal.jstr d.confidence),
      (chars "key_markers", JVal.jarr (d.key_markers.map JVal.jstr)),
      (chars "analysis", JVal.jstr d.analysis) ]

/-- The default dictionary `process_task` starts from (lines 85-90). -/
def defaultSentimentData : SentimentData :=
  ⟨chars "unknown", chars "0%", [], chars "No analysis available"⟩

/-- Python `l[-3:]`. -/
def lastThree {α : Type} (l : List α) : List α := l.drop (l.length - 3)

/-- `SentimentTaskManager.process_task`
(`agents/sentiment_analyzer/task_manager.py`, lines 46-121): returns the
response dictionary and the updated session store.  The `try` block covers the
runner call and event consumption; session lookup/creation precedes it. -/
def processTask (inp : TaskInput) (store : SessionStore) : JVal × SessionStore :=
  let userId := inp.ctxUserId.getD (chars "default_a2a_user")
  let sid :=
    match inp.sessionId with
    | none => inp.freshId
    | some s => if s = [] then inp.freshId else s
  let key : SessionKey := (A2A_APP_NAME, userId, sid)
  let store' := if key ∈ store then store else store ++ [key]
  match inp.outcome with
  | RunOutcome.raised _ t m =>
    (JVal.jobj
      [ (chars "message", JVal.jstr (chars "Error processing your request: " ++ m)),
        (chars "status", JVal.jstr (chars "error")),
        (chars "data", JVal.jobj [(chars "error_type", JVal.jstr t)]) ], store')
  | RunOutcome.ok events =>
    let st := events.foldl
      (fun acc e =>
        match finalText e with
        | some t => (t, extractSentimentData t)
        | none => acc)
      (chars "(No response generated)", defaultSentimentData)
    (JVal.jobj
      [ (chars "message", JVal.jstr st.1),
        (chars "status", JVal.jstr (chars "success")),
        (chars "data", JVal.jobj
          [ (chars "sentiment_analysis", sdToJVal st.2),
            (chars "raw_events", JVal.jarr (lastThree (events.map A2AEvent.dump))) ]) ],
     store')

/-! ## The sentiment dashboard's `send_message`
(`apps/a2a_sentiment_app.py`, lines 67-130). -/

/-- One entry of `st.session_state.messages`: the dictionaries the app appends
have keys `role`, `content` and — for successful analyses only — `sentiment_data`. -/
structure ChatMsg where
  role : List Char
  content : JVal
  sentiment_data : Option JVal

/-- Outcome of the HTTP exchange (`requests.post` + `raise_for_status` +
`response.json()`): a parsed JSON body, or one of the three exception classes
the handler distinguishes. -/
inductive HttpResult where
  | success (respData : JVal)
  | requestExc (emsg : List Char)
  | jsonExc (emsg : List Char)
  | otherExc (emsg : List Char)

/-- The dashboard state `send_message` touches. -/
structure SentAppState where
  session_id : List Char
  messages : List ChatMsg

/-- `send_message(message)`: returns the function's boolean result, the updated
state, and the list of `st.error` banners shown during the call. -/
def send_message (st : SentAppState) (message : List Char) (http : HttpResult) :
    Bool × SentAppState × List (List Char) :=
  if st.session_id = [] then
    (false, st, [chars "No active conversation. Start typing to begin."])
  else
    let st1 : SentAppState :=
      { st with messages := st.messages ++ [⟨chars "user", JVal.jstr message, none⟩] }
    match http with
    | HttpResult.success rd =>
      let assistantMessage :=
        (jGet rd (chars "message")).getD (JVal.jstr (chars "(No analysis received)"))
      let d := (jGet rd (chars "data")).getD (JVal.jobj [])
      let sd := (jGet d (chars "sentiment_analysis")).getD (JVal.jobj [])
      (true,
       { st1 with messages :=
          st1.messages ++ [⟨chars "assistant", assistantMessage, some sd⟩] }, [])
    | HttpResult.requestExc e =>
      (false,
       { st1 with messages :=
          st1.messages ++
            [⟨chars "assistant",
              JVal.jstr (chars "Error: Could not connect to agent. " ++ e), none⟩] },
       [chars "Network or HTTP error: " ++ e])
    | HttpResult.jsonExc _ =>
      (false,
       { st1 with messages :=
          st1.messages ++
            [⟨chars "assistant",
              JVal.jstr (chars "Error: Invalid response format from agent."), none⟩] },
       [chars "Failed to decode JSON response from agent."])
    | HttpResult.otherExc e =>
      (false,
       { st1 with messages :=
          st1.messages ++
            [⟨chars "assistant",
              JVal.jstr (chars "Error: An unexpected error occurred. " ++ e), none⟩] },
       [chars "An unexpected error occurred: " ++ e])

/-! ## Port selection of the sentiment analyzer server
(`agents/sentiment_analyzer/__main__.py`, lines 27 and 45). -/

def DEFAULT_PORT : Nat := 8004

/-- The decimal value of a digit string. -/
def digitsVal (l : List Char) : Nat :=
  l.foldl (fun a c => 10 * a + (c.toNat - '0'.toNat)) 0

/-- Python `int(s)` restricted to (possibly whitespace-padded) non-negative
decimal digit strings — the shapes the claim speaks about; other inputs,
where `int` would raise or apply sign/underscore rules, map to `none`. -/
def pyIntOfDecimal (l : List Char) : Option Nat :=
  let t := pyStrip l
  if t ≠ [] ∧ t.all Char.isDigit then some (digitsVal t) else none

/-- `int(os.environ.get("SENTIMENT_ANALYZER_PORT", DEFAULT_PORT))`: the port
the uvicorn config is built with. -/
def sentimentAnalyzerPort (env : Option (List Char)) : Option Nat :=
  match env with
  | none => some DEFAULT_PORT
  | some s => pyIntOfDecimal s

/-! ## Bullet-formatted marker sections

A family of inputs whose `Key Markers:` section is written as indented bullet
lines, used to settle the bullet-list claim. -/

/-- One bullet line ` - <marker>` followed by a newline. -/
def bulletLine (m : List Char) : List Char := ' ' :: '-' :: ' ' :: (m ++ ['\n'])

def bulletsBody (ms : List (List Char)) : List Char := (ms.map bulletLine).flatten

/-- `"Key Markers:"` followed by one indented bullet line per marker. -/
def bulletText (ms : List (List Char)) : List Char :=
  chars "Key Markers:" ++ '\n' :: bulletsBody ms

/-- The capture the Key Markers regex produces on `bulletText ms`. -/
def capExpected : List (List Char) → List Char
  | [] => []
  | m :: rest => '\n' :: ' ' :: '-' :: ' ' :: (m ++ capExpected rest)

/-- A well-formed marker: non-empty, single-line, with no surrounding
whitespace (i.e. already in `str.strip()` normal form). -/
def markerOk (m : List Char) : Prop :=
  m ≠ [] ∧ (∀ c ∈ m, c ≠ '\n') ∧
    isPyWs (m.headD 'x') = false ∧ isPyWs (m.getLastD 'x') = false

instance (m : List Char) : Decidable (markerOk m) := by
  unfold markerOk
  infer_instance

/-! # Helper lemmas -/

theorem searchPos_eq_none {α : Type} (f : List Char → Option α) :
    ∀ cs : List Char, (∀ t ∈ cs.tails, f t = none) → searchPos f cs = none := by
  intro cs
  induction cs with
  | nil =>
    intro h
    simpa [searchPos] using h [] (by simp)
  | cons c cs ih =>
    intro h
    have h0 : f (c :: cs) = none := h (c :: cs) (by simp)
    have hrest : ∀ t ∈ cs.tails, f t = none := by
      intro t ht
      exact h t (by simp [List.tails_cons, ht])
    simp [searchPos, h0, ih hrest]

theorem searchPos_some {α : Type} (f : List Char → Option α) :
    ∀ (cs : List Char) (r : α), searchPos f cs = some r → ∃ t, f t = some r := by
  intro cs
  induction cs with
  | nil => exact fun r h => ⟨[], h⟩
  | cons c cs ih =>
    intro r h
    rw [searchPos] at h
    cases hf : f (c :: cs) with
    | some v => rw [hf] at h; exact ⟨c :: cs, hf.trans h⟩
    | none => rw [hf] at h; exact ih r h

theorem extract_sentiment_default (cs : List Char)
    (h : searchPos matchSentimentAt cs = none) :
    (extractSentimentData cs).sentiment = chars "unknown" := by
  simp [extractSentimentData, h]

theorem extract_confidence_default (cs : List Char)
    (h : searchPos matchConfidenceAt cs = none) :
    (extractSentimentData cs).confidence = chars "0%" := by
  simp [extractSentimentData, h]

theorem extract_markers_default (cs : List Char)
    (h : searchPos matchMarkersAt cs = none) :
    (extractSentimentData cs).key_markers = [] := by
  simp [extractSentimentData, h]

theorem extract_analysis_default (cs : List Char)
    (h : searchPos matchAnalysisAt cs = none) :
    (extractSentimentData cs).analysis = chars "No analysis available" := by
  simp [extractSentimentData, h]

theorem matchCIKeep_lower (p : List Char) :
    ∀ cs g : List Char, matchCIKeep p cs = some g → strLower g = p := by
  induction p with
  | nil =>
    intro cs g h
    simp [matchCIKeep] at h
    subst h
    rfl
  | cons pc p ih =>
    intro cs g h
    cases cs with
    | nil => simp [matchCIKeep] at h
    | cons c cs =>
      rw [matchCIKeep] at h
      by_cases hc : c.toLower = pc
      · rw [if_pos hc, Option.map_eq_some'] at h
        obtain ⟨g', hg', rfl⟩ := h
        simp [strLower] at ih ⊢
        exact ⟨hc, ih cs g' hg'⟩
      · simp [if_neg hc] at h

theorem matchSentimentAt_canonical (t g : List Char)
    (h : matchSentimentAt t = some g) :
    strLower g = chars "positive" ∨ strLower g = chars "negative" ∨
      strLower g = chars "neutral" := by
  unfold matchSentimentAt at h
  cases hp : stripPrefixCI (chars "overall sentiment:") t with
  | none => rw [hp] at h; exact absurd h (by simp)
  | some rest =>
    rw [hp] at h
    simp only at h
    cases h1 : matchCIKeep (chars "positive") (dropSpaces rest) with
    | some g1 =>
      rw [h1] at h
      simp only [Option.some.injEq] at h
      exact Or.inl (h ▸ matchCIKeep_lower _ _ _ h1)
    | none =>
      rw [h1] at h
      cases h2 : matchCIKeep (chars "negative") (dropSpaces rest) with
      | some g2 =>
        rw [h2] at h
        simp only [Option.some.injEq] at h
        exact Or.inr (Or.inl (h ▸ matchCIKeep_lower _ _ _ h2))
      | none =>
        rw [h2] at h
        exact Or.inr (Or.inr (matchCIKeep_lower _ _ _ h))

/-! # Claim theorems -/

/-- C1: for every message, context, session id and session store, if the
model-execution path (the runner call and event consumption) raises an
exception of class `excType`, `process_task` returns normally with a response
whose `status` is `"error"` and whose `data` carries `excType` under
`error_type`. -/
theorem C1_exception_becomes_error_response
    (message : List Char) (ctxUserId sessionId : Option (List Char))
    (freshId : List Char) (store : SessionStore)
    (consumed : List A2AEvent) (excType excMsg : List Char) :
    jGet (processTask ⟨message, ctxUserId, sessionId, freshId,
        RunOutcome.raised consumed excType excMsg⟩ store).1 (chars "status")
      = some (JVal.jstr (chars "error")) ∧
    ((jGet (processTask ⟨message, ctxUserId, sessionId, freshId,
        RunOutcome.raised consumed excType excMsg⟩ store).1 (chars "data")).bind
      (fun d => jGet d (chars "error_type")))
      = some (JVal.jstr excType) := by
  constructor <;> rfl

/-- C2 counterexample: on the literal input of the claim the code does not
return `key_markers = ["happy", "excited"]` — the captured markers section
runs through the `Analysis:` line. -/
theorem C2_literal_extraction_counterexample :
    (extractSentimentData (chars "Overall Sentiment: positive\nConfidence: 90%\nKey Markers: happy, excited\nAnalysis: upbeat")).key_markers
      ≠ [chars "happy", chars "excited"] := by
  decide

/-- C2 amended: on that literal input the extraction yields sentiment
`"positive"`, confidence `"90%"`, analysis `"upbeat"`, and
`key_markers = ["happy", "excited\nAnalysis: upbeat"]` (the marker capture is
only stopped by a blank line, a `"\n-"` boundary or the end of the text, so it
swallows the following `Analysis:` line). -/
theorem C2_literal_extraction_amended :
    extractSentimentData (chars "Overall Sentiment: positive\nConfidence: 90%\nKey Markers: happy, excited\nAnalysis: upbeat")
      = ⟨chars "positive", chars "90%",
         [chars "happy", chars "excited\nAnalysis: upbeat"], chars "upbeat"⟩ := by
  decide

/-- C3 counterexample: `"Confidence: 50"` has no `Overall Sentiment:` line,
yet its extracted confidence is `"50%"`, not the claimed `"0%"`. -/
theorem C3_no_sentiment_line_counterexample :
    (∀ t ∈ (chars "Confidence: 50").tails, matchSentimentAt t = none) ∧
    (extractSentimentData (chars "Confidence: 50")).confidence ≠ chars "0%" := by
  constructor
  · decide
  · decide

/-- C3 amended: for text with no occurrence of the sentiment pattern, the
sentiment defaults to `"unknown"`; the confidence is `"0%"` only under the
extra proviso that the text also has no occurrence of the confidence
pattern (the two extractions are independent). -/
theorem C3_no_sentiment_line_amended (cs : List Char)
    (h : ∀ t ∈ cs.tails, matchSentimentAt t = none) :
    (extractSentimentData cs).sentiment = chars "unknown" ∧
    ((∀ t ∈ cs.tails, matchConfidenceAt t = none) →
      (extractSentimentData cs).confidence = chars "0%") := by
  refine ⟨extract_sentiment_default cs (searchPos_eq_none _ cs h), fun h2 => ?_⟩
  exact extract_confidence_default cs (searchPos_eq_none _ cs h2)

theorem C3_no_sentiment_line_witness :
    (extractSentimentData (chars "all good here")).sentiment = chars "unknown" ∧
    (extractSentimentData (chars "all good here")).confidence = chars "0%" :=
  ⟨(C3_no_sentiment_line_amended (chars "all good here") (by decide)).1,
   (C3_no_sentiment_line_amended (chars "all good here") (by decide)).2 (by decide)⟩

/-- C5: whenever the first match of the confidence pattern captures the bare
digits `"82"` (no percent sign), the extracted confidence is normalized to
`"82%"`. -/
theorem C5_bare_confidence_normalized (cs : List Char)
    (h : searchPos matchConfidenceAt cs = some (chars "82")) :
    (extractSentimentData cs).confidence = chars "82%" := by
  simp [extractSentimentData, h]
  decide

theorem C5_bare_confidence_normalized_witness :
    (extractSentimentData (chars "Confidence: 82")).confidence = chars "82%" :=
  C5_bare_confidence_normalized (chars "Confidence: 82") (by decide)

/-- C6 counterexample: a concrete call with `session_id = None` (message
`"hi"`, no context user, generated uuid `"abc-123"`, empty event stream).
The generated identifier is stored in the session service, but it occurs
nowhere in the returned response — not as a key and not inside any value —
so it is not returned to the caller. -/
theorem C6_session_id_counterexample :
    jvalMentions (chars "abc-123")
      (processTask ⟨chars "hi", none, none, chars "abc-123",
        RunOutcome.ok []⟩ []).1 = false ∧
    (processTask ⟨chars "hi", none, none, chars "abc-123", RunOutcome.ok []⟩ []).2
      = [(A2A_APP_NAME, chars "default_a2a_user", chars "abc-123")] := by
  constructor <;> rfl

theorem mem_store_update (key : SessionKey) (store : SessionStore) :
    key ∈ (if key ∈ store then store else store ++ [key]) := by
  by_cases hk : key ∈ store
  · simp [hk]
  · simp [hk]

/-- C6 amended: invoked with `session_id` absent (`None` or empty),
`process_task` generates a fresh identifier and creates a session under it in
the session service — so a follow-up call passing that same identifier would
continue the session — but the identifier is not returned to the caller: the
response has exactly the keys `message`, `status`, `data` and no
`session_id` entry. -/
theorem C6_session_id_amended (inp : TaskInput) (store : SessionStore)
    (h : inp.sessionId = none ∨ inp.sessionId = some []) :
    ((A2A_APP_NAME, inp.ctxUserId.getD (chars "default_a2a_user"), inp.freshId)
        ∈ (processTask inp store).2) ∧
    jKeys (processTask inp store).1
      = [chars "message", chars "status", chars "data"] ∧
    jGet (processTask inp store).1 (chars "session_id") = none := by
  obtain ⟨message, ctxUserId, sessionId, freshId, outcome⟩ := inp
  rcases h with h | h <;> simp only at h <;> subst h <;> cases outcome <;>
    refine ⟨?_, by rfl, by rfl⟩ <;>
    · simp only [processTask]
      exact mem_store_update _ _

theorem C6_session_id_witness :
    ((A2A_APP_NAME, chars "default_a2a_user", chars "uuid-77")
        ∈ (processTask ⟨chars "hello", none, none, chars "uuid-77",
            RunOutcome.ok []⟩ []).2) ∧
    jKeys (processTask ⟨chars "hello", none, none, chars "uuid-77",
        RunOutcome.ok []⟩ []).1
      = [chars "message", chars "status", chars "data"] ∧
    jGet (processTask ⟨chars "hello", none, none, chars "uuid-77",
        RunOutcome.ok []⟩ []).1 (chars "session_id") = none :=
  C6_session_id_amended
    ⟨chars "hello", none, none, chars "uuid-77", RunOutcome.ok []⟩ [] (Or.inl rfl)

/-- C7: extraction is total on every input (the model is a function), the
result has exactly the four fields of `SentimentData`, the sentiment is one
of `positive`/`negative`/`neutral`/`unknown`, and every field falls back to
its documented default when its pattern matches nowhere in the text. -/
theorem C7_extraction_total_with_defaults (cs : List Char) :
    ((extractSentimentData cs).sentiment = chars "positive" ∨
     (extractSentimentData cs).sentiment = chars "negative" ∨
     (extractSentimentData cs).sentiment = chars "neutral" ∨
     (extractSentimentData cs).sentiment = chars "unknown") ∧
    ((∀ t ∈ cs.tails, matchSentimentAt t = none) →
      (extractSentimentData cs).sentiment = chars "unknown") ∧
    ((∀ t ∈ cs.tails, matchConfidenceAt t = none) →
      (extractSentimentData cs).confidence = chars "0%") ∧
    ((∀ t ∈ cs.tails, matchMarkersAt t = none) →
      (extractSentimentData cs).key_markers = []) ∧
    ((∀ t ∈ cs.tails, matchAnalysisAt t = none) →
      (extractSentimentData cs).analysis = chars "No analysis available") := by
  refine ⟨?_,
    fun h => extract_sentiment_default cs (searchPos_eq_none _ cs h),
    fun h => extract_confidence_default cs (searchPos_eq_none _ cs h),
    fun h => extract_markers_default cs (searchPos_eq_none _ cs h),
    fun h => extract_analysis_default cs (searchPos_eq_none _ cs h)⟩
  cases hs : searchPos matchSentimentAt cs with
  | none => exact Or.inr (Or.inr (Or.inr (extract_sentiment_default cs hs)))
  | some g =>
    have hsent : (extractSentimentData cs).sentiment = strLower g := by
      simp [extractSentimentData, hs]
    obtain ⟨t, ht⟩ := searchPos_some _ cs g hs
    rcases matchSentimentAt_canonical t g ht with h | h | h <;>
      rw [hsent, h] <;> simp

theorem C7_extraction_total_with_defaults_witness :
    (extractSentimentData (chars "fine day")).sentiment = chars "unknown" ∧
    (extractSentimentData (chars "fine day")).confidence = chars "0%" ∧
    (extractSentimentData (chars "fine day")).key_markers = [] ∧
    (extractSentimentData (chars "fine day")).analysis
      = chars "No analysis available" :=
  ⟨(C7_extraction_total_with_defaults (chars "fine day")).2.1 (by decide),
   (C7_extraction_total_with_defaults (chars "fine day")).2.2.1 (by decide),
   (C7_extraction_total_with_defaults (chars "fine day")).2.2.2.1 (by decide),
   (C7_extraction_total_with_defaults (chars "fine day")).2.2.2.2 (by decide)⟩

/-- C8: on any `requests` exception during the HTTP exchange, `send_message`
catches the failure, shows the error banner, appends both the user's message
and an assistant-role error message to the visible chat history, and returns
`False`. -/
theorem C8_dashboard_request_failure (st : SentAppState) (message e : List Char)
    (h : st.session_id ≠ []) :
    (send_message st message (HttpResult.requestExc e)).1 = false ∧
    (send_message st message (HttpResult.requestExc e)).2.1.messages =
      st.messages ++
        [⟨chars "user", JVal.jstr message, none⟩,
         ⟨chars "assistant",
          JVal.jstr (chars "Error: Could not connect to agent. " ++ e), none⟩] ∧
    (send_message st message (HttpResult.requestExc e)).2.2 =
      [chars "Network or HTTP error: " ++ e] := by
  simp [send_message, h]

theorem C8_dashboard_request_failure_witness :
    (send_message ⟨chars "conv-1", []⟩ (chars "great day")
        (HttpResult.requestExc (chars "boom"))).1 = false ∧
    (send_message ⟨chars "conv-1", []⟩ (chars "great day")
        (HttpResult.requestExc (chars "boom"))).2.1.messages =
      [] ++
        [⟨chars "user", JVal.jstr (chars "great day"), none⟩,
         ⟨chars "assistant",
          JVal.jstr (chars "Error: Could not connect to agent. " ++ chars "boom"),
          none⟩] ∧
    (send_message ⟨chars "conv-1", []⟩ (chars "great day")
        (HttpResult.requestExc (chars "boom"))).2.2 =
      [chars "Network or HTTP error: " ++ chars "boom"] :=
  C8_dashboard_request_failure ⟨chars "conv-1", []⟩ (chars "great day")
    (chars "boom") (by decide)

theorem isPyWs_false_of_isDigit (c : Char) (h : c.isDigit = true) :
    isPyWs c = false := by
  cases hws : isPyWs c with
  | false => rfl
  | true =>
    exfalso
    simp only [isPyWs, Bool.or_eq_true, beq_iff_eq] at hws
    rcases hws with ((((rfl | rfl) | rfl) | rfl) | rfl) | rfl <;>
      exact absurd h (by decide)

theorem dropWhile_eq_self_of_none (p : Char → Bool) (l : List Char)
    (h : ∀ c ∈ l, p c = false) : l.dropWhile p = l := by
  cases l with
  | nil => rfl
  | cons c t => simp [List.dropWhile_cons, h c (by simp)]

theorem pyStrip_all_digits (s : List Char) (h : s.all Char.isDigit = true) :
    pyStrip s = s := by
  have h' : ∀ c ∈ s, isPyWs c = false := fun c hc =>
    isPyWs_false_of_isDigit c (List.all_eq_true.mp h c hc)
  unfold pyStrip dropTrail
  rw [dropWhile_eq_self_of_none _ _ h',
    dropWhile_eq_self_of_none _ _ (fun c hc => h' c (List.mem_reverse.mp hc)),
    List.reverse_reverse]

/-- C9: with `SENTIMENT_ANALYZER_PORT` unset, the uvicorn config of the
sentiment analyzer server is built with port 8004; with the variable set to a
decimal digit string, with that string's value. -/
theorem C9_port_selection :
    sentimentAnalyzerPort none = some 8004 ∧
    ∀ s : List Char, s ≠ [] → s.all Char.isDigit = true →
      sentimentAnalyzerPort (some s) = some (digitsVal s) := by
  refine ⟨rfl, fun s hne hdig => ?_⟩
  have hs : pyStrip s = s := pyStrip_all_digits s hdig
  simp [sentimentAnalyzerPort, pyIntOfDecimal, hs, hne, hdig]

theorem C9_port_selection_witness :
    sentimentAnalyzerPort none = some 8004 ∧
    sentimentAnalyzerPort (some (chars "8010")) = some 8010 :=
  ⟨C9_port_selection.1, C9_port_selection.2 (chars "8010") (by decide) (by decide)⟩

theorem foldl_keeps_default (events : List A2AEvent)
    (h : ∀ e ∈ events, finalText e = none) :
    ∀ acc : List Char × SentimentData,
      events.foldl
        (fun acc e =>
          match finalText e with
          | some t => (t, extractSentimentData t)
          | none => acc) acc = acc := by
  induction events with
  | nil => intro acc; rfl
  | cons e evs ih =>
    intro acc
    rw [List.foldl_cons]
    have he : finalText e = none := h e (by simp)
    rw [he]
    exact ih (fun e' he' => h e' (by simp [he'])) acc

/-- C10: if the runner's event stream completes without raising and no event
passes the final-response test (final response, model-role content, non-empty
first-part text), `process_task` still reports `status = "success"`, with the
literal message `"(No response generated)"` and the all-default sentiment
record. -/
theorem C10_empty_stream_success (inp : TaskInput) (store : SessionStore)
    (events : List A2AEvent) (h1 : inp.outcome = RunOutcome.ok events)
    (h2 : ∀ e ∈ events, finalText e = none) :
    jGet (processTask inp store).1 (chars "status")
      = some (JVal.jstr (chars "success")) ∧
    jGet (processTask inp store).1 (chars "message")
      = some (JVal.jstr (chars "(No response generated)")) ∧
    (jGet (processTask inp store).1 (chars "data")).bind
        (fun d => jGet d (chars "sentiment_analysis"))
      = some (JVal.jobj
          [ (chars "sentiment", JVal.jstr (chars "unknown")),
            (chars "confidence", JVal.jstr (chars "0%")),
            (chars "key_markers", JVal.jarr []),
            (chars "analysis", JVal.jstr (chars "No analysis available")) ]) := by
  obtain ⟨message, ctxUserId, sessionId, freshId, outcome⟩ := inp
  simp only at h1
  subst h1
  have hfold := foldl_keeps_default events h2
    (chars "(No response generated)", defaultSentimentData)
  refine ⟨?_, ?_, ?_⟩ <;>
    · simp only [processTask, hfold]
      rfl

theorem C10_empty_stream_success_witness :
    jGet (processTask ⟨chars "hi", none, some (chars "s1"), chars "u1",
        RunOutcome.ok [⟨true, some ⟨chars "user", [⟨some (chars "echo")⟩]⟩,
          JVal.jobj []⟩]⟩ []).1 (chars "status")
      = some (JVal.jstr (chars "success")) ∧
    jGet (processTask ⟨chars "hi", none, some (chars "s1"), chars "u1",
        RunOutcome.ok [⟨true, some ⟨chars "user", [⟨some (chars "echo")⟩]⟩,
          JVal.jobj []⟩]⟩ []).1 (chars "message")
      = some (JVal.jstr (chars "(No response generated)")) ∧
    (jGet (processTask ⟨chars "hi", none, some (chars "s1"), chars "u1",
        RunOutcome.ok [⟨true, some ⟨chars "user", [⟨some (chars "echo")⟩]⟩,
          JVal.jobj []⟩]⟩ []).1 (chars "data")).bind
        (fun d => jGet d (chars "sentiment_analysis"))
      = some (JVal.jobj
          [ (chars "sentiment", JVal.jstr (chars "unknown")),
            (chars "confidence", JVal.jstr (chars "0%")),
            (chars "key_markers", JVal.jarr []),
            (chars "analysis", JVal.jstr (chars "No analysis available")) ]) :=
  C10_empty_stream_success
    ⟨chars "hi", none, some (chars "s1"), chars "u1",
      RunOutcome.ok [⟨true, some ⟨chars "user", [⟨some (chars "echo")⟩]⟩,
        JVal.jobj []⟩]⟩ []
    [⟨true, some ⟨chars "user", [⟨some (chars "echo")⟩]⟩, JVal.jobj []⟩]
    rfl
    (by intro e he; rw [List.mem_singleton] at he; subst he; rfl)

/-! # Bullet-marker lemmas (claim C4) -/

theorem stopM_cons_of_ne (c : Char) (xs : List Char) (h : c ≠ '\n') :
    stopM (c :: xs) = false := by
  cases xs <;> simp [stopM, h]

theorem lazyCapture_cons_go (stopF : List Char → Bool) (c : Char) (cs : List Char)
    (h : stopF (c :: cs) = false) :
    lazyCapture stopF (c :: cs) = c :: lazyCapture stopF cs := by
  simp [lazyCapture, h]

theorem lazyCapture_through (m : List Char) (ys : List Char)
    (h : ∀ c ∈ m, c ≠ '\n') :
    lazyCapture stopM (m ++ ys) = m ++ lazyCapture stopM ys := by
  induction m with
  | nil => rfl
  | cons c m ih =>
    have hc : c ≠ '\n' := h c (by simp)
    rw [List.cons_append, lazyCapture_cons_go _ _ _ (stopM_cons_of_ne c _ hc),
      ih (fun c' hc' => h c' (by simp [hc']))]
    rfl

theorem capture_bullets :
    ∀ ms : List (List Char), (∀ m ∈ ms, markerOk m) →
      lazyCapture stopM ('\n' :: bulletsBody ms) = capExpected ms := by
  intro ms
  induction ms with
  | nil => intro _; rfl
  | cons m rest ih =>
    intro h
    obtain ⟨_, hnl, _, _⟩ := h m (by simp)
    have hrest : ∀ m' ∈ rest, markerOk m' := fun m' hm' => h m' (by simp [hm'])
    have hbody : bulletsBody (m :: rest)
        = ' ' :: '-' :: ' ' :: (m ++ '\n' :: bulletsBody rest) := by
      simp [bulletsBody, bulletLine]
    rw [hbody]
    rw [lazyCapture_cons_go _ _ _ (by simp [stopM])]
    rw [lazyCapture_cons_go _ _ _ (stopM_cons_of_ne ' ' _ (by decide))]
    rw [lazyCapture_cons_go _ _ _ (stopM_cons_of_ne '-' _ (by decide))]
    rw [lazyCapture_cons_go _ _ _ (stopM_cons_of_ne ' ' _ (by decide))]
    rw [lazyCapture_through m _ hnl, ih hrest]
    simp [capExpected]

theorem getLastD_append_right (l1 l2 : List Char) (d : Char) (h : l2 ≠ []) :
    (l1 ++ l2).getLastD d = l2.getLastD d := by
  rcases List.eq_nil_or_concat l2 with rfl | ⟨L, b, rfl⟩
  · exact absurd rfl h
  · simp only [List.concat_eq_append, ← List.append_assoc, List.getLastD_concat]

theorem getLastD_irrel (l : List Char) (h : l ≠ []) (d d' : Char) :
    l.getLastD d = l.getLastD d' := by
  rcases List.eq_nil_or_concat l with rfl | ⟨L, b, rfl⟩
  · exact absurd rfl h
  · simp [List.concat_eq_append, List.getLastD_concat]

theorem capExpected_ne_nil (m : List Char) (rest : List (List Char)) :
    capExpected (m :: rest) ≠ [] := by
  simp [capExpected]

theorem capExpected_lastD (d : Char) :
    ∀ ms : List (List Char), (∀ m ∈ ms, markerOk m) → ms ≠ [] →
      isPyWs ((capExpected ms).getLastD d) = false := by
  intro ms
  induction ms with
  | nil => intro _ hne; exact absurd rfl hne
  | cons m rest ih =>
    intro h _
    obtain ⟨hne, _, _, hlast⟩ := h m (by simp)
    cases rest with
    | nil =>
      have hform : capExpected [m] = ('\n' :: ' ' :: '-' :: ' ' :: []) ++ m := by
        simp [capExpected]
      rw [hform, getLastD_append_right _ _ _ hne, getLastD_irrel m hne d 'x']
      exact hlast
    | cons m2 r2 =>
      have hform : capExpected (m :: m2 :: r2)
          = (('\n' :: ' ' :: '-' :: ' ' :: []) ++ m) ++ capExpected (m2 :: r2) := by
        simp [capExpected]
      rw [hform, getLastD_append_right _ _ _ (capExpected_ne_nil m2 r2)]
      exact ih (fun m' hm' => h m' (by simp [hm'])) (by simp)

theorem pyStrip_cons_ws (c : Char) (l : List Char) (h : isPyWs c = true) :
    pyStrip (c :: l) = pyStrip l := by
  simp [pyStrip, List.dropWhile_cons, h]

theorem dropTrail_eq_self (l : List Char) (hne : l ≠ [])
    (h : isPyWs (l.getLastD 'x') = false) : dropTrail l = l := by
  rcases List.eq_nil_or_concat l with rfl | ⟨L, b, rfl⟩
  · exact absurd rfl hne
  · rw [List.concat_eq_append] at h ⊢
    rw [List.getLastD_concat] at h
    have hrev : (L ++ [b]).reverse = b :: L.reverse := by simp
    unfold dropTrail
    rw [hrev, List.dropWhile_cons, h]
    simp

theorem pyStrip_eq_self (l : List Char) (hne : l ≠ [])
    (hhd : isPyWs (l.headD 'x') = false)
    (hlast : isPyWs (l.getLastD 'x') = false) : pyStrip l = l := by
  cases l with
  | nil => exact absurd rfl hne
  | cons c t =>
    have hdw : (c :: t).dropWhile isPyWs = c :: t := by
      simp only [List.headD_cons] at hhd
      rw [List.dropWhile_cons, hhd]
      simp
    unfold pyStrip
    rw [hdw]
    exact dropTrail_eq_self _ hne hlast

theorem afterFirstDash_dash_space (m : List Char) :
    afterFirstDash ('-' :: ' ' :: m) = ' ' :: m := by
  simp [afterFirstDash, List.dropWhile_cons]

theorem afterFirstDash_sp_dash_space (m : List Char) :
    afterFirstDash (' ' :: '-' :: ' ' :: m) = ' ' :: m := by
  simp [afterFirstDash, List.dropWhile_cons]

theorem marker_of_line1 (m : List Char) (h : markerOk m) :
    pyStrip (afterFirstDash ('-' :: ' ' :: m)) = m := by
  obtain ⟨hne, _, hhd, hlast⟩ := h
  rw [afterFirstDash_dash_space, pyStrip_cons_ws ' ' m (by decide)]
  exact pyStrip_eq_self m hne hhd hlast

theorem marker_of_line2 (m : List Char) (h : markerOk m) :
    pyStrip (afterFirstDash (' ' :: '-' :: ' ' :: m)) = m := by
  obtain ⟨hne, _, hhd, hlast⟩ := h
  rw [afterFirstDash_sp_dash_space, pyStrip_cons_ws ' ' m (by decide)]
  exact pyStrip_eq_self m hne hhd hlast

theorem pySplit_no_sep (sep : Char) :
    ∀ l : List Char, (∀ c ∈ l, c ≠ sep) → pySplit sep l = [l] := by
  intro l
  induction l with
  | nil => intro _; rfl
  | cons c cs ih =>
    intro h
    have hc : (c == sep) = false := by simp [h c (by simp)]
    simp only [pySplit, hc]
    rw [ih (fun c' hc' => h c' (by simp [hc']))]
    simp

theorem pySplit_append_sep (sep : Char) (l2 : List Char) :
    ∀ l1 : List Char, (∀ c ∈ l1, c ≠ sep) →
      pySplit sep (l1 ++ sep :: l2) = l1 :: pySplit sep l2 := by
  intro l1
  induction l1 with
  | nil => intro _; simp [pySplit]
  | cons c cs ih =>
    intro h
    have hc : (c == sep) = false := by simp [h c (by simp)]
    simp only [List.cons_append, pySplit, hc, List.append_eq]
    rw [ih (fun c' hc' => h c' (by simp [hc']))]
    simp

theorem split_lines :
    ∀ (ms : List (List Char)) (pre : List Char), (∀ m ∈ ms, markerOk m) →
      (∀ c ∈ pre, c ≠ '\n') →
      pySplit '\n' (pre ++ capExpected ms)
        = pre :: ms.map (fun m => ' ' :: '-' :: ' ' :: m) := by
  intro ms
  induction ms with
  | nil =>
    intro pre _ hpre
    simpa [capExpected] using pySplit_no_sep '\n' pre hpre
  | cons m rest ih =>
    intro pre h hpre
    obtain ⟨_, hnl, _, _⟩ := h m (by simp)
    have hcap : pre ++ capExpected (m :: rest)
        = pre ++ '\n' :: ((' ' :: '-' :: ' ' :: m) ++ capExpected rest) := by
      simp [capExpected]
    have hpre' : ∀ c ∈ (' ' :: '-' :: ' ' :: m), c ≠ '\n' := by
      intro c hc
      simp only [List.mem_cons] at hc
      rcases hc with rfl | rfl | rfl | hc
      · decide
      · decide
      · decide
      · exact hnl c hc
    rw [hcap, pySplit_append_sep '\n' _ pre hpre,
      ih (' ' :: '-' :: ' ' :: m) (fun m' hm' => h m' (by simp [hm'])) hpre']
    simp

theorem extract_markers_eq (cs g : List Char)
    (h : searchPos matchMarkersAt cs = some g) :
    (extractSentimentData cs).key_markers =
      (let mt := pyStrip g
       if '-' ∈ mt then
         (pySplit '\n' mt).filterMap (fun line =>
           if '-' ∈ line then
             let marker := pyStrip (afterFirstDash line)
             if marker = [] then none else some marker
           else none)
       else if ',' ∈ mt then
         (pySplit ',' mt).filterMap (fun m =>
           let s := pyStrip m
           if s = [] then none else some s)
       else if mt = [] then [] else [mt]) := by
  simp [extractSentimentData, h]

theorem bullet_line_value (m : List Char) (h : markerOk m) :
    (if '-' ∈ (' ' :: '-' :: ' ' :: m) then
       (let marker := pyStrip (afterFirstDash (' ' :: '-' :: ' ' :: m))
        if marker = [] then none else some marker)
     else none) = some m := by
  simp [marker_of_line2 m h, h.1]

theorem filterMap_bullet_lines :
    ∀ rest : List (List Char), (∀ m ∈ rest, markerOk m) →
      (rest.map (fun m => ' ' :: '-' :: ' ' :: m)).filterMap
        (fun line =>
          if '-' ∈ line then
            let marker := pyStrip (afterFirstDash line)
            if marker = [] then none else some marker
          else none) = rest := by
  intro rest
  induction rest with
  | nil => intro _; rfl
  | cons m r ih =>
    intro h
    rw [List.map_cons, List.filterMap_cons]
    have hv := bullet_line_value m (h m (by simp))
    simp only [hv]
    rw [ih (fun m' hm' => h m' (by simp [hm']))]

/-- C4 counterexample: a Key Markers section written as bullet lines whose
dashes immediately follow the newline — the regex capture stops at the first
`"\n-"` boundary, so both non-empty bullets are lost and `key_markers` is
empty rather than `["happy", "excited"]`. -/
theorem C4_bullet_markers_counterexample :
    (extractSentimentData (chars "Key Markers:\n- happy\n- excited")).key_markers
        = [] ∧
    (extractSentimentData (chars "Key Markers:\n- happy\n- excited")).key_markers
        ≠ [chars "happy", chars "excited"] := by
  constructor
  · decide
  · decide

/-- C4 amended: the captured markers section is cut at the first `"\n\n"` or
`"\n-"` boundary, so bullets whose dash starts a line are dropped; for a
bullet list whose dashes are indented (here `" - marker"` lines, each marker
non-empty, single-line and stripped), every non-empty bullet becomes exactly
one `key_markers` entry, in text order. -/
theorem C4_bullet_markers_amended (ms : List (List Char))
    (h : ∀ m ∈ ms, markerOk m) :
    (extractSentimentData (bulletText ms)).key_markers = ms := by
  cases ms with
  | nil => decide
  | cons m rest =>
    obtain ⟨hne, hnl, hhd, hlast⟩ := h m (by simp)
    have hrest : ∀ m' ∈ rest, markerOk m' := fun m' hm' => h m' (by simp [hm'])
    have hsearch : searchPos matchMarkersAt (bulletText (m :: rest))
        = some (capExpected (m :: rest)) := by
      have hshape : bulletText (m :: rest)
          = 'K' :: (chars "ey Markers:" ++ '\n' :: bulletsBody (m :: rest)) := rfl
      rw [hshape, searchPos]
      have hm2 : matchMarkersAt
          ('K' :: (chars "ey Markers:" ++ '\n' :: bulletsBody (m :: rest)))
          = some (lazyCapture stopM ('\n' :: bulletsBody (m :: rest))) := rfl
      rw [hm2, capture_bullets (m :: rest) h]
    have hmt : pyStrip (capExpected (m :: rest))
        = '-' :: ' ' :: (m ++ capExpected rest) := by
      have hform : capExpected (m :: rest)
          = '\n' :: ' ' :: ('-' :: ' ' :: (m ++ capExpected rest)) := by
        simp [capExpected]
      rw [hform, pyStrip_cons_ws '\n' _ (by decide),
        pyStrip_cons_ws ' ' _ (by decide)]
      refine pyStrip_eq_self _ (by simp) (by rfl) ?_
      cases rest with
        | nil =>
          have hform2 : '-' :: ' ' :: (m ++ capExpected ([] : List (List Char)))
              = ('-' :: ' ' :: []) ++ m := by
            simp [capExpected]
          rw [hform2, getLastD_append_right _ _ _ hne, getLastD_irrel m hne 'x' 'x']
          exact hlast
        | cons m2 r2 =>
          have hform2 : '-' :: ' ' :: (m ++ capExpected (m2 :: r2))
              = (('-' :: ' ' :: []) ++ m) ++ capExpected (m2 :: r2) := by
            simp
          rw [hform2, getLastD_append_right _ _ _ (capExpected_ne_nil m2 r2)]
          exact capExpected_lastD 'x' (m2 :: r2) hrest (by simp)
    have hsplit : pySplit '\n' ('-' :: ' ' :: (m ++ capExpected rest))
        = ('-' :: ' ' :: m) :: rest.map (fun m' => ' ' :: '-' :: ' ' :: m') := by
      have hform : '-' :: ' ' :: (m ++ capExpected rest)
          = ('-' :: ' ' :: m) ++ capExpected rest := by
        simp
      rw [hform]
      refine split_lines rest ('-' :: ' ' :: m) hrest ?_
      intro c hc
      simp only [List.mem_cons] at hc
      rcases hc with rfl | rfl | hc
      · decide
      · decide
      · exact hnl c hc
    have hline1 : (if '-' ∈ ('-' :: ' ' :: m) then
        (let marker := pyStrip (afterFirstDash ('-' :: ' ' :: m))
         if marker = [] then none else some marker)
      else none) = some m := by
      simp [marker_of_line1 m ⟨hne, hnl, hhd, hlast⟩, hne]
    rw [extract_markers_eq _ _ hsearch]
    simp only [hmt]
    rw [if_pos (by simp : '-' ∈ ('-' :: ' ' :: (m ++ capExpected rest)))]
    rw [hsplit, List.filterMap_cons]
    simp only [hline1]
    rw [filterMap_bullet_lines rest hrest]

theorem C4_bullet_markers_witness :
    (extractSentimentData
        (bulletText [chars "happy", chars "very excited"])).key_markers
      = [chars "happy", chars "very excited"] :=
  C4_bullet_markers_amended [chars "happy", chars "very excited"] (by decide)

end Adk
